import Mathlib

/-
Verification of the CAD manufacturing core: geometry extraction
(`cad_processor.py`), sheet nesting (`nesting_optimizer.py`) and cutting-path
sequencing (`path_optimizer.py`).

The Python sources are shallowly embedded: exact rational/real arithmetic
stands in for IEEE floats, `Python round` (half-to-even) and `int()`
truncation are modelled exactly on the mathematical value, and each embedded
definition carries the name of the source function it translates.
-/

namespace CAD

/-! ### Python rounding / truncation primitives

`round(x)` in Python rounds half to even (banker's rounding); `round(x, k)`
scales by `10^k`.  `int(x)` truncates toward zero.  We model both on the
exact value of the operand. -/

section Rounding

variable {α : Type} [LinearOrderedField α] [FloorRing α] [DecidableEq α]

/-- Python `round(y)`: nearest integer, ties to even.  On a tie
(`fract y = 1/2`) the doubled rounding `2 * round (y/2)` selects the even
neighbour; elsewhere it is ordinary nearest-integer rounding. -/
def pyRound (y : α) : ℤ :=
  if Int.fract y = 1/2 then 2 * round (y/2) else round y

/-- Python `round(x, 2)`. -/
def round2 (x : α) : α := (pyRound (x * 100) : α) / 100

/-- Python `round(x, 1)`. -/
def round1 (x : α) : α := (pyRound (x * 10) : α) / 10

/-- Python `int(x)`: truncation toward zero. -/
def pyInt (x : α) : ℤ := if 0 ≤ x then ⌊x⌋ else ⌈x⌉

lemma pyInt_of_nonneg {x : α} (h : 0 ≤ x) : pyInt x = ⌊x⌋ := if_pos h

lemma pyRound_intCast (n : ℤ) : pyRound (n : α) = n := by
  have hf : Int.fract (n : α) = 0 := Int.fract_intCast n
  rw [pyRound, if_neg (by rw [hf]; norm_num), round_intCast]

/-- Away from a tie, `pyRound` is the unique integer within distance `1/2`. -/
lemma pyRound_of_bounds {y : α} (n : ℤ) (h1 : (n : α) - 1/2 < y)
    (h2 : y < (n : α) + 1/2) : pyRound y = n := by
  rw [pyRound]
  split_ifs with htie
  · exfalso
    have hy : y = (⌊y⌋ : α) + 1/2 := by
      have := Int.fract_add_floor y
      rw [htie] at this
      linarith
    rw [hy] at h1 h2
    have hlt : ⌊y⌋ < n := by exact_mod_cast (by linarith : (⌊y⌋ : α) < n)
    have hgt : n - 1 < ⌊y⌋ := by
      have : (n : α) - 1 < ⌊y⌋ := by linarith
      exact_mod_cast this
    omega
  · rw [round_eq]
    rw [Int.floor_eq_iff]
    constructor <;> push_cast <;> linarith

lemma pyRound_nonneg {y : α} (h : 0 ≤ y) : 0 ≤ pyRound y := by
  rw [pyRound]
  split_ifs with htie
  · have hy : y = (⌊y⌋ : α) + 1/2 := by
      have := Int.fract_add_floor y
      rw [htie] at this
      linarith
    have hfl : 0 ≤ ⌊y⌋ := by
      have : (-1 : α) < ⌊y⌋ := by linarith
      have : (-1 : ℤ) < ⌊y⌋ := by exact_mod_cast this
      omega
    have hr : (⌊y⌋ : α) - 1 < 2 * round (y/2) := by
      have := sub_half_lt_round (y/2)
      have h2 : y/2 - 1/2 < (round (y/2) : α) := this
      nlinarith
    have : ⌊y⌋ - 1 < 2 * round (y/2) := by exact_mod_cast hr
    omega
  · have : (0 : α) - 1/2 < y := by linarith
    have h2 : (0 : α) ≤ y + 1/2 := by linarith
    have := round_eq y
    have hfl : 0 ≤ ⌊y + 1/2⌋ := Int.le_floor.mpr (by exact_mod_cast h2)
    omega

lemma pyRound_le_int {y : α} (n : ℤ) (h : y ≤ (n : α)) : pyRound y ≤ n := by
  rw [pyRound]
  split_ifs with htie
  · have hy : y = (⌊y⌋ : α) + 1/2 := by
      have := Int.fract_add_floor y
      rw [htie] at this
      linarith
    have hfl : ⌊y⌋ < n := by
      have : (⌊y⌋ : α) < n := by linarith
      exact_mod_cast this
    have hr : (2 * round (y/2) : α) < ⌊y⌋ + 2 := by
      have := round_le_add_half (y/2)
      have h2 : (round (y/2) : α) ≤ y/2 + 1/2 := this
      nlinarith
    have : 2 * round (y/2) < ⌊y⌋ + 2 := by exact_mod_cast hr
    omega
  · have h2 : y + 1/2 < (n : α) + 1 := by linarith
    rw [round_eq]
    have : ⌊y + 1/2⌋ < n + 1 := Int.floor_lt.mpr (by push_cast; linarith)
    omega

lemma round2_nonneg {x : α} (h : 0 ≤ x) : 0 ≤ round2 x := by
  rw [round2]
  have : (0 : ℤ) ≤ pyRound (x * 100) := pyRound_nonneg (by nlinarith)
  positivity

lemma round2_le_hundred {x : α} (h : x ≤ 100) : round2 x ≤ 100 := by
  rw [round2]
  have hle : pyRound (x * 100) ≤ (10000 : ℤ) :=
    pyRound_le_int 10000 (by push_cast; nlinarith)
  have : (pyRound (x * 100) : α) ≤ 10000 := by exact_mod_cast hle
  linarith

lemma round2_zero : round2 (0 : α) = 0 := by
  rw [round2]
  rw [show (0 : α) * 100 = ((0 : ℤ) : α) by norm_num, pyRound_intCast]
  norm_num

/-- Evaluate `round2` when `x * 100` is strictly within `1/2` of an integer. -/
lemma round2_eval {x : α} (n : ℤ) (h1 : (n : α) - 1/2 < x * 100)
    (h2 : x * 100 < (n : α) + 1/2) : round2 x = (n : α) / 100 := by
  rw [round2, pyRound_of_bounds n h1 h2]

lemma round1_nonneg {x : α} (h : 0 ≤ x) : 0 ≤ round1 x := by
  rw [round1]
  have : (0 : ℤ) ≤ pyRound (x * 10) := pyRound_nonneg (by nlinarith)
  positivity

lemma round1_le_hundred {x : α} (h : x ≤ 100) : round1 x ≤ 100 := by
  rw [round1]
  have hle : pyRound (x * 10) ≤ (1000 : ℤ) :=
    pyRound_le_int 1000 (by push_cast; nlinarith)
  have : (pyRound (x * 10) : α) ≤ 1000 := by exact_mod_cast hle
  linarith

lemma round1_zero : round1 (0 : α) = 0 := by
  rw [round1]
  rw [show (0 : α) * 10 = ((0 : ℤ) : α) by norm_num, pyRound_intCast]
  norm_num

end Rounding

/-! ### `cad_processor.py`: length formulas and the extraction record

Coordinates and lengths are exact reals; `math.sqrt` is `Real.sqrt`,
`math.pi` is `Real.pi`, `math.radians d = d * π / 180`. -/

noncomputable section Geometry

/-- Euclidean distance `math.sqrt(dx*dx + dy*dy)` as computed by
`_calculate_line_length`, `_calculate_polyline_length` and
`path_optimizer._distance`. -/
def dist2 (p q : ℝ × ℝ) : ℝ :=
  Real.sqrt ((q.1 - p.1) * (q.1 - p.1) + (q.2 - p.2) * (q.2 - p.2))

/-- `math.radians` -/
def radians (d : ℝ) : ℝ := d * Real.pi / 180

/-- `_calculate_line_length`: Euclidean distance between the endpoints. -/
def calculate_line_length (s e : ℝ × ℝ) : ℝ := dist2 s e

/-- `_calculate_arc_length`: convert both angles to radians, add `2π` to the
end angle when it is strictly below the start angle, return
`radius * (end - start)`. -/
def calculate_arc_length (radius startAngle endAngle : ℝ) : ℝ :=
  let s := radians startAngle
  let e := radians endAngle
  let e' := if e < s then e + 2 * Real.pi else e
  radius * (e' - s)

/-- `_calculate_circle_length`: circumference `2πr`. -/
def calculate_circle_length (radius : ℝ) : ℝ := 2 * Real.pi * radius

/-- The loop of `_calculate_polyline_length`: for `i in range(len(points)-1)`
add the distance from `points[i]` to `points[i+1]`.  (The source's arity
guard `len(points[i]) >= 2` is vacuously true for 2-D points.) -/
def polylineLengthAux : List (ℝ × ℝ) → ℝ
  | p :: q :: rest => dist2 p q + polylineLengthAux (q :: rest)
  | _ => 0

/-- A polyline entity: its listed vertices and its closed flag. -/
structure Polyline where
  points : List (ℝ × ℝ)
  closed : Bool

/-- `_calculate_polyline_length`: sums consecutive-vertex distances over the
listed points; the `closed` flag of the entity is never consulted. -/
def calculate_polyline_length (pl : Polyline) : ℝ := polylineLengthAux pl.points

/-- The entity variants of `process_dxf` that carry a cutting length.
(SPLINE/ELLIPSE approximations, TEXT and INSERT records are orthogonal to
every claim and omitted; layer bookkeeping is likewise omitted.) -/
inductive Entity where
  | line (start stop : ℝ × ℝ)
  | arc (center : ℝ × ℝ) (radius startAngle endAngle : ℝ)
  | circle (center : ℝ × ℝ) (radius : ℝ)
  | lwpolyline (pl : Polyline)

/-- The exact length `process_dxf` accumulates into `total_length` for each
entity (the `length` local variable, before any rounding). -/
def entityLength : Entity → ℝ
  | .line s e => calculate_line_length s e
  | .arc _ r sa ea => calculate_arc_length r sa ea
  | .circle _ r => calculate_circle_length r
  | .lwpolyline pl => calculate_polyline_length pl

/-- The length value `process_dxf` stores in the `entities` list record:
LINE records store the exact length, ARC/CIRCLE/LWPOLYLINE records store
`round(length, 2)`. -/
def storedLength : Entity → ℝ
  | .line s e => calculate_line_length s e
  | e => round2 (entityLength e)

def etypeName : Entity → String
  | .line _ _ => "LINE"
  | .arc _ _ _ _ => "ARC"
  | .circle _ _ => "CIRCLE"
  | .lwpolyline _ => "LWPOLYLINE"

/-- One record of the `geometry_data['entities']` list (the fields the
claims read: the type tag and the stored length). -/
structure EntityRecord where
  etype : String
  length : ℝ

/-- The slice of `geometry_data` the claims are about. -/
structure GeometryRecord where
  total_length : ℝ
  entities : List EntityRecord

/-- The accumulation step of the `process_dxf` entity loop:
`total_length += length` and append the entity record. -/
def processStep (acc : ℝ × List EntityRecord) (e : Entity) : ℝ × List EntityRecord :=
  (acc.1 + entityLength e, acc.2 ++ [⟨etypeName e, storedLength e⟩])

/-- `process_dxf`: run the entity loop from a zeroed record, then round the
accumulated `total_length` to 2 decimals (`geometry_data['total_length'] =
round(..., 2)`). -/
def process_dxf (es : List Entity) : GeometryRecord :=
  let acc := es.foldl processStep (0, [])
  { total_length := round2 acc.1, entities := acc.2 }

end Geometry

/-! ### `nesting_optimizer.py`

All quantities the optimizer reads are plain numbers (the part bounding box
and a fixed catalog), modelled in exact rational arithmetic. -/

structure Sheet where
  name : String
  width : ℚ
  height : ℚ
  area : ℚ
  cost_per_mm2 : ℚ

/-- `NestingOptimizer.standard_sheets` (cost `0.0001 = 1/10000`). -/
def standard_sheets : List Sheet :=
  [⟨"1000x2000mm", 1000, 2000, 2000000, 1/10000⟩,
   ⟨"1250x2500mm", 1250, 2500, 3125000, 1/10000⟩,
   ⟨"1500x3000mm", 1500, 3000, 4500000, 1/10000⟩,
   ⟨"2000x4000mm", 2000, 4000, 8000000, 1/10000⟩]

/-- The slice of `geometry_data['bounding_box']` the optimizer reads. -/
structure BoundingBox where
  width : ℚ
  height : ℚ
  area : ℚ

/-- `spacing = 5  # 5mm spacing between parts` -/
def spacing : ℚ := 5

/-- `parts_x = int((sheet['width'] - spacing) / (part_width + spacing))` -/
def partsX (bb : BoundingBox) (s : Sheet) : ℤ :=
  pyInt ((s.width - spacing) / (bb.width + spacing))

/-- `parts_y = int((sheet['height'] - spacing) / (part_height + spacing))` -/
def partsY (bb : BoundingBox) (s : Sheet) : ℤ :=
  pyInt ((s.height - spacing) / (bb.height + spacing))

/-- `total_parts = parts_x * parts_y` -/
def totalParts (bb : BoundingBox) (s : Sheet) : ℤ := partsX bb s * partsY bb s

/-- The unrounded `utilization` local: `used_area / sheet['area'] * 100`
with `used_area = total_parts * part_area`.  The selection loop compares
this value; the arrangement stores its 2-decimal rounding. -/
def utilRaw (bb : BoundingBox) (s : Sheet) : ℚ :=
  ((totalParts bb s : ℚ) * bb.area) / s.area * 100

/-- One entry of `_generate_layout` (coordinates stored rounded). -/
structure PlacedPart where
  x : ℚ
  y : ℚ
  width : ℚ
  height : ℚ
  part_number : ℕ

/-- `_generate_layout`: row-major grid, `start_x = start_y = spacing`,
`part_number = len(layout) + 1` (equivalently the row-major index + 1). -/
def generate_layout (parts_x parts_y : ℤ) (pw ph sp : ℚ) : List PlacedPart :=
  (List.range parts_y.toNat).flatMap fun (y : ℕ) =>
    (List.range parts_x.toNat).map fun (x : ℕ) =>
      ⟨round2 (sp + (x : ℚ) * (pw + sp)), round2 (sp + (y : ℚ) * (ph + sp)), pw, ph,
       Nat.add (Nat.add (Nat.mul y parts_x.toNat) x) 1⟩

/-- The arrangement dict built per candidate sheet. -/
structure Arrangement where
  sheet_name : String
  sheet_width : ℚ
  sheet_height : ℚ
  parts_x : ℤ
  parts_y : ℤ
  total_parts : ℤ
  utilization : ℚ
  waste_percent : ℚ
  waste_area : ℚ
  cost_per_part : ℚ
  savings_per_part : ℚ
  layout : List PlacedPart

/-- Python `round(x, 4)` (used for the two cost fields). -/
def round4 {α : Type} [LinearOrderedField α] [FloorRing α] [DecidableEq α]
    (x : α) : α :=
  (pyRound (x * 10000) : α) / 10000

/-- The arrangement built for one sheet in `calculate_optimal_nesting`. -/
def mkArrangement (bb : BoundingBox) (s : Sheet) : Arrangement :=
  let px := partsX bb s
  let py := partsY bb s
  let tp := px * py
  let used := (tp : ℚ) * bb.area
  let waste := s.area - used
  let mc := s.area * s.cost_per_mm2
  let cpp := if tp > 0 then mc / tp else 0
  let spp := if tp > 1 then mc / 1 - cpp else 0
  { sheet_name := s.name
    sheet_width := s.width
    sheet_height := s.height
    parts_x := px
    parts_y := py
    total_parts := tp
    utilization := round2 (utilRaw bb s)
    waste_percent := round2 (waste / s.area * 100)
    waste_area := round2 waste
    cost_per_part := round4 cpp
    savings_per_part := round4 spp
    layout := generate_layout px py bb.width bb.height spacing }

/-- The sheet loop of `calculate_optimal_nesting`: skip sheets with
`total_parts == 0` (`continue`), append every surviving arrangement to
`results`, and keep the arrangement of the first sheet whose raw
utilization strictly exceeds the best seen so far (initially `0`). -/
def nestLoop (bb : BoundingBox) :
    List Sheet → ℚ → Option Arrangement → List Arrangement × Option Arrangement
  | [], _, best => ([], best)
  | s :: rest, bu, best =>
    if totalParts bb s = 0 then nestLoop bb rest bu best
    else
      let arr := mkArrangement bb s
      let r :=
        if utilRaw bb s > bu then nestLoop bb rest (utilRaw bb s) (some arr)
        else nestLoop bb rest bu best
      (arr :: r.1, r.2)

/-- The rotated ("width/height swapped") grid probed by
`_generate_nesting_recommendations`. -/
def rotatedTotal (a : Arrangement) (pw ph : ℚ) : ℤ :=
  pyInt ((a.sheet_width - 5) / (ph + 5)) * pyInt ((a.sheet_height - 5) / (pw + 5))

/-- The four advisory strings of `_generate_nesting_recommendations`,
as a tagged type (numeric payloads of the f-string kept). -/
inductive Advice where
  /-- "Consider rotating parts 90 degrees for better fit" -/
  | considerRotating
  /-- "High waste percentage - consider custom sheet size" -/
  | highWaste
  /-- "Good for batch production - significant cost savings per part" -/
  | batchProduction
  /-- "Rotating parts 90 degrees would fit R parts (vs C current)" -/
  | rotationWouldFit (rotated current : ℤ)
deriving DecidableEq

/-- `_generate_nesting_recommendations`: note that the rotated-grid probe
and its advisory are NOT gated on the utilization test; only the generic
"consider rotating" note is. -/
def generate_nesting_recommendations (a : Arrangement) (pw ph : ℚ) : List Advice :=
  (if a.utilization < 50 then [Advice.considerRotating] else []) ++
  (if a.waste_percent > 30 then [Advice.highWaste] else []) ++
  (if a.total_parts > 10 then [Advice.batchProduction] else []) ++
  (if rotatedTotal a pw ph > a.total_parts then
    [Advice.rotationWouldFit (rotatedTotal a pw ph) a.total_parts]
  else [])

/-- The success payload of `calculate_optimal_nesting`. -/
structure NestSuccess where
  part_width : ℚ
  part_height : ℚ
  part_area : ℚ
  best_arrangement : Arrangement
  all_arrangements : List Arrangement
  recommendations : List Advice

inductive NestResult where
  | failure (error : String)
  | success (out : NestSuccess)
deriving Inhabited

/-- `calculate_optimal_nesting(geometry_data, material, thickness)`.
The `material` and `thickness` parameters are accepted and never read,
exactly as in the source. -/
def calculate_optimal_nesting (bb : BoundingBox) (material : String)
    (thickness : ℚ) : NestResult :=
  if bb.width = 0 ∨ bb.height = 0 then .failure "Invalid part dimensions"
  else
    let r := nestLoop bb standard_sheets 0 none
    match r.2 with
    | none => .failure "Part too large for standard sheets"
    | some bestArr =>
      .success ⟨round2 bb.width, round2 bb.height, round2 bb.area, bestArr, r.1,
                generate_nesting_recommendations bestArr bb.width bb.height⟩

/-! ### `cad_processor.py`: `_calculate_complexity_score`

The score reads only entity counts, the layer-map size and the bounding-box
area, so it is embedded as a function of exactly those inputs.  The float
literal `3.33` is the exact decimal `333/100`. -/

structure ComplexityInput where
  line_count : ℕ
  arc_count : ℕ
  circle_count : ℕ
  polyline_count : ℕ
  spline_count : ℕ
  ellipse_count : ℕ
  layer_count : ℕ
  area : ℚ

/-- `total_entities`: the six length-bearing entity counts summed. -/
def totalEntities (g : ComplexityInput) : ℕ :=
  g.line_count + g.arc_count + g.circle_count + g.polyline_count +
    g.spline_count + g.ellipse_count

/-- `entity_types`: how many of the six kinds are present. -/
def entityTypes (g : ComplexityInput) : ℕ :=
  (if g.line_count > 0 then 1 else 0) + (if g.arc_count > 0 then 1 else 0) +
  (if g.circle_count > 0 then 1 else 0) + (if g.polyline_count > 0 then 1 else 0) +
  (if g.spline_count > 0 then 1 else 0) + (if g.ellipse_count > 0 then 1 else 0)

/-- `_calculate_complexity_score`: six additive factors, clamped by
`min(100, score)` and rounded to one decimal. -/
def calculate_complexity_score (g : ComplexityInput) : ℚ :=
  let total : ℚ := (totalEntities g : ℚ)
  let s1 := min 30 (total / 10)
  let s2 := (entityTypes g : ℚ) * (333/100)
  let s3 := min 15 ((g.layer_count : ℚ) * 2)
  let s4 := if g.spline_count > 0 then min 15 ((g.spline_count : ℚ) / 2) else 0
  let s5 :=
    if g.area > 0 then
      if g.area > 1000000 then (10 : ℚ)
      else if g.area > 100000 then 7
      else if g.area > 10000 then 5
      else 2
    else 0
  let s6 :=
    if g.area > 0 then
      if total / g.area > 1 then min 10 (total / g.area * 2) else 0
    else 0
  round1 (min 100 (s1 + s2 + s3 + s4 + s5 + s6))

/-! ### `path_optimizer.py`

Waypoints are coordinate pairs; the `id`/`entity_id`/`type` tags attached in
the source never influence distances, the tour order or the savings figures,
so they are dropped from the embedding. -/

noncomputable section PathOpt

/-- The entity records `calculate_tsp_path` inspects: LINE records with
`start`/`end`, CIRCLE records with `center`, anything else contributes no
waypoint. -/
inductive PathEntity where
  | line (start stop : ℝ × ℝ)
  | circle (center : ℝ × ℝ) (radius : ℝ)
  | other

/-- The waypoint-extraction loop of `calculate_tsp_path`: each LINE appends
its start then its end point, each CIRCLE its center. -/
def extractPoints : List PathEntity → List (ℝ × ℝ)
  | [] => []
  | .line s e :: rest => s :: e :: extractPoints rest
  | .circle c _ :: rest => c :: extractPoints rest
  | .other :: rest => extractPoints rest

/-- `_calculate_original_distance`: walk the entities in listed order,
accumulating travel from the last visited point to the entity's first
reference point plus the entity's own traversal (a line's length; a circle
contributes only its center as a stop). -/
def origWalk : Option (ℝ × ℝ) → List PathEntity → ℝ
  | _, [] => 0
  | none, .line s e :: rest => dist2 s e + origWalk (some e) rest
  | some lp, .line s e :: rest => dist2 lp s + dist2 s e + origWalk (some e) rest
  | none, .circle c _ :: rest => origWalk (some c) rest
  | some lp, .circle c _ :: rest => dist2 lp c + origWalk (some c) rest
  | last, .other :: rest => origWalk last rest

def calculate_original_distance (es : List PathEntity) : ℝ := origWalk none es

/-- Default point used only as an out-of-range `getD` fallback. -/
def originPt : ℝ × ℝ := (0, 0)

/-- The inner scan of `_nearest_neighbor_tsp`:
`for i, point in enumerate(unvisited): if dist < min_dist: update`. -/
def nearestScan (cur : ℝ × ℝ) : ℕ × ℝ → ℕ → List (ℝ × ℝ) → ℕ × ℝ
  | acc, _, [] => acc
  | acc, i, p :: ps =>
    if dist2 cur p < acc.2 then nearestScan cur (i, dist2 cur p) (i + 1) ps
    else nearestScan cur acc (i + 1) ps

/-- `nearest_idx` after the scan.  The source seeds `min_dist = float('inf')`,
so the first iteration always installs index 0; the scan is therefore seeded
with the head's distance at index 0 and continues from index 1. -/
def nearestIdx (cur : ℝ × ℝ) : List (ℝ × ℝ) → ℕ
  | [] => 0
  | p :: ps => (nearestScan cur (0, dist2 cur p) 1 ps).1

/-- The waypoint `unvisited.pop(nearest_idx)` selects. -/
def chosen (cur : ℝ × ℝ) (l : List (ℝ × ℝ)) : ℝ × ℝ :=
  l.getD (nearestIdx cur l) originPt

lemma nearestScan_spec (cur : ℝ × ℝ) :
    ∀ (ps : List (ℝ × ℝ)) (bi : ℕ) (bd : ℝ) (i : ℕ),
      (nearestScan cur (bi, bd) i ps = (bi, bd) ∧ ∀ p ∈ ps, bd ≤ dist2 cur p)
      ∨ ∃ k, ∃ hk : k < ps.length,
          nearestScan cur (bi, bd) i ps = (i + k, dist2 cur (ps.get ⟨k, hk⟩)) ∧
          dist2 cur (ps.get ⟨k, hk⟩) < bd ∧
          (∀ p ∈ ps, dist2 cur (ps.get ⟨k, hk⟩) ≤ dist2 cur p) ∧
          (∀ j, ∀ hj : j < k,
            dist2 cur (ps.get ⟨k, hk⟩) < dist2 cur (ps.get ⟨j, Nat.lt_trans hj hk⟩)) := by
  intro ps
  induction ps with
  | nil => intro bi bd i; left; exact ⟨rfl, by simp⟩
  | cons p ps ih =>
    intro bi bd i
    rw [nearestScan]
    split_ifs with hlt
    · -- head strictly improves: continue with (i, dist p)
      rcases ih i (dist2 cur p) (i + 1) with ⟨heq, hmin⟩ | ⟨k, hk, heq, hbd, hmin, htie⟩
      · right
        refine ⟨0, by simp, ?_, ?_, ?_, ?_⟩
        · simpa using heq
        · simpa using hlt
        · intro q hq
          rcases List.mem_cons.mp hq with h | h
          · simp [h]
          · simpa using hmin q h
        · intro j hj; omega
      · right
        refine ⟨k + 1, by simpa using Nat.succ_lt_succ hk, ?_, ?_, ?_, ?_⟩
        · rw [heq, Prod.mk.injEq]
          exact ⟨by omega, by simp⟩
        · simp only [List.get_cons_succ]
          exact lt_trans hbd hlt
        · intro q hq
          simp only [List.get_cons_succ]
          rcases List.mem_cons.mp hq with h | h
          · rw [h]; exact le_of_lt hbd
          · exact hmin q h
        · intro j hj
          match j with
          | 0 =>
            simp only [List.get_cons_succ, List.get_cons_zero]
            exact hbd
          | j' + 1 =>
            have hj' : j' < k := by omega
            simp only [List.get_cons_succ]
            exact htie j' hj'
    · -- head does not improve: keep (bi, bd)
      rcases ih bi bd (i + 1) with ⟨heq, hmin⟩ | ⟨k, hk, heq, hbd, hmin, htie⟩
      · left
        refine ⟨heq, ?_⟩
        intro q hq
        rcases List.mem_cons.mp hq with h | h
        · rw [h]; linarith [not_lt.mp hlt]
        · exact hmin q h
      · right
        refine ⟨k + 1, by simpa using Nat.succ_lt_succ hk, ?_, ?_, ?_, ?_⟩
        · rw [heq, Prod.mk.injEq]
          exact ⟨by omega, by simp⟩
        · simp only [List.get_cons_succ]
          exact hbd
        · intro q hq
          simp only [List.get_cons_succ]
          rcases List.mem_cons.mp hq with h | h
          · rw [h]
            exact le_of_lt (lt_of_lt_of_le hbd (not_lt.mp hlt))
          · exact hmin q h
        · intro j hj
          match j with
          | 0 =>
            simp only [List.get_cons_succ, List.get_cons_zero]
            exact lt_of_lt_of_le hbd (not_lt.mp hlt)
          | j' + 1 =>
            have hj' : j' < k := by omega
            simp only [List.get_cons_succ]
            exact htie j' hj'

lemma nearestIdx_lt (cur : ℝ × ℝ) (p : ℝ × ℝ) (ps : List (ℝ × ℝ)) :
    nearestIdx cur (p :: ps) < (p :: ps).length := by
  rw [nearestIdx]
  rcases nearestScan_spec cur ps 0 (dist2 cur p) 1 with ⟨heq, _⟩ | ⟨k, hk, heq, _⟩
  · simp [heq]
  · rw [heq]; simp; omega

/-- When the scan finds an improvement, the chosen index and value are
recorded consistently; convenience accessor for `nearestIdx` on cons. -/
lemma nearestIdx_cases (cur : ℝ × ℝ) (p : ℝ × ℝ) (ps : List (ℝ × ℝ)) :
    (nearestIdx cur (p :: ps) = 0 ∧ ∀ q ∈ ps, dist2 cur p ≤ dist2 cur q)
    ∨ ∃ k, ∃ hk : k < ps.length,
        nearestIdx cur (p :: ps) = 1 + k ∧
        dist2 cur (ps.get ⟨k, hk⟩) < dist2 cur p ∧
        (∀ q ∈ ps, dist2 cur (ps.get ⟨k, hk⟩) ≤ dist2 cur q) ∧
        (∀ j, ∀ hj : j < k,
          dist2 cur (ps.get ⟨k, hk⟩) < dist2 cur (ps.get ⟨j, Nat.lt_trans hj hk⟩)) := by
  rcases nearestScan_spec cur ps 0 (dist2 cur p) 1 with
    ⟨heq, hmin⟩ | ⟨k, hk, heq, hbd, hmin, htie⟩
  · left
    exact ⟨by rw [nearestIdx, heq], hmin⟩
  · right
    exact ⟨k, hk, by rw [nearestIdx, heq], hbd, hmin, htie⟩

lemma chosen_cons_zero (cur p : ℝ × ℝ) (ps : List (ℝ × ℝ))
    (hidx : nearestIdx cur (p :: ps) = 0) : chosen cur (p :: ps) = p := by
  rw [chosen, hidx]
  rfl

lemma chosen_cons_succ (cur p : ℝ × ℝ) (ps : List (ℝ × ℝ)) (k : ℕ)
    (hk : k < ps.length) (hidx : nearestIdx cur (p :: ps) = 1 + k) :
    chosen cur (p :: ps) = ps.get ⟨k, hk⟩ := by
  rw [chosen, hidx]
  have hlt : 1 + k < (p :: ps).length := by simp; omega
  rw [List.getD_eq_getElem _ _ hlt]
  have h1k : 1 + k = k + 1 := by omega
  simp [h1k]

/-- The selected waypoint is at minimal distance among the unvisited ones. -/
lemma chosen_min (cur : ℝ × ℝ) (p : ℝ × ℝ) (ps : List (ℝ × ℝ)) :
    ∀ q ∈ p :: ps, dist2 cur (chosen cur (p :: ps)) ≤ dist2 cur q := by
  intro q hq
  rcases nearestIdx_cases cur p ps with
    ⟨hidx, hmin⟩ | ⟨k, hk, hidx, hbd, hmin, _⟩
  · rw [chosen_cons_zero cur p ps hidx]
    rcases List.mem_cons.mp hq with h | h
    · rw [h]
    · exact hmin q h
  · rw [chosen_cons_succ cur p ps k hk hidx]
    rcases List.mem_cons.mp hq with h | h
    · rw [h]; exact le_of_lt hbd
    · exact hmin q h

/-- Ties go to the earliest index: every strictly earlier unvisited waypoint
is strictly farther. -/
lemma chosen_earliest (cur : ℝ × ℝ) (p : ℝ × ℝ) (ps : List (ℝ × ℝ)) :
    ∀ j, ∀ hj : j < nearestIdx cur (p :: ps),
      dist2 cur (chosen cur (p :: ps)) <
        dist2 cur ((p :: ps).get ⟨j, Nat.lt_trans hj (nearestIdx_lt cur p ps)⟩) := by
  intro j hj
  rcases nearestIdx_cases cur p ps with
    ⟨hidx, _⟩ | ⟨k, hk, hidx, hbd, _, htie⟩
  · rw [hidx] at hj; omega
  · rw [chosen_cons_succ cur p ps k hk hidx]
    have hjk : j < 1 + k := by rw [hidx] at hj; exact hj
    match j, hjk with
    | 0, _ => simpa using hbd
    | j' + 1, hjk =>
      have hj' : j' < k := by omega
      have := htie j' hj'
      simpa using this

/-- Putting the selected element back in front of the eraseIdx remainder is a
permutation of the original list. -/
lemma get_cons_eraseIdx_perm :
    ∀ (l : List (ℝ × ℝ)) (i : ℕ) (h : i < l.length),
      (l.get ⟨i, h⟩ :: l.eraseIdx i).Perm l
  | _ :: _, 0, _ => by simp
  | a :: l, i + 1, h => by
    have h' : i < l.length := by simpa using h
    have ih := get_cons_eraseIdx_perm l i h'
    have h1 : (a :: l).get ⟨i + 1, h⟩ :: (a :: l).eraseIdx (i + 1)
        = l.get ⟨i, h'⟩ :: a :: l.eraseIdx i := by simp
    rw [h1]
    exact (List.Perm.swap a _ _).trans (ih.cons a)

/-- The `while unvisited:` loop of `_nearest_neighbor_tsp`: pop the nearest
unvisited waypoint and append it. -/
def nnTour : (ℝ × ℝ) → List (ℝ × ℝ) → List (ℝ × ℝ)
  | _, [] => []
  | cur, p :: ps =>
    chosen cur (p :: ps)
      :: nnTour (chosen cur (p :: ps)) ((p :: ps).eraseIdx (nearestIdx cur (p :: ps)))
termination_by _ l => l.length
decreasing_by
  simp_wf
  rw [List.length_eraseIdx_of_lt (nearestIdx_lt cur p ps)]
  simp

lemma nnTour_perm_aux :
    ∀ (n : ℕ) (cur : ℝ × ℝ) (l : List (ℝ × ℝ)), l.length ≤ n →
      (nnTour cur l).Perm l := by
  intro n
  induction n with
  | zero =>
    intro cur l hl
    have : l = [] := List.length_eq_zero.mp (Nat.le_zero.mp hl)
    subst this
    rw [nnTour]
  | succ n ih =>
    intro cur l hl
    match l with
    | [] => rw [nnTour]
    | p :: ps =>
      rw [nnTour]
      have hi := nearestIdx_lt cur p ps
      have hgd : chosen cur (p :: ps)
          = (p :: ps).get ⟨nearestIdx cur (p :: ps), hi⟩ := by
        rw [chosen, List.getD_eq_getElem _ _ hi]
        rfl
      have hlen : ((p :: ps).eraseIdx (nearestIdx cur (p :: ps))).length ≤ n := by
        rw [List.length_eraseIdx_of_lt hi]
        simpa using hl
      rw [hgd]
      exact ((ih ((p :: ps).get ⟨nearestIdx cur (p :: ps), hi⟩)
        ((p :: ps).eraseIdx (nearestIdx cur (p :: ps))) hlen).cons _).trans
        (get_cons_eraseIdx_perm _ _ hi)

lemma nnTour_perm (cur : ℝ × ℝ) (l : List (ℝ × ℝ)) : (nnTour cur l).Perm l :=
  nnTour_perm_aux l.length cur l le_rfl

/-- `_nearest_neighbor_tsp`: return lists of fewer than 2 points unchanged,
otherwise start at the first point and greedily extend. -/
def nearest_neighbor_tsp : List (ℝ × ℝ) → List (ℝ × ℝ)
  | [] => []
  | [p] => [p]
  | p :: q :: rest => p :: nnTour p (q :: rest)

/-- `_calculate_path_distance`: sum of consecutive distances along a path. -/
def calculate_path_distance : List (ℝ × ℝ) → ℝ
  | p :: q :: rest => dist2 p q + calculate_path_distance (q :: rest)
  | _ => 0

lemma dist2_nonneg (p q : ℝ × ℝ) : 0 ≤ dist2 p q := Real.sqrt_nonneg _

lemma calculate_path_distance_nonneg :
    ∀ l : List (ℝ × ℝ), 0 ≤ calculate_path_distance l
  | [] => le_refl 0
  | [_] => le_refl 0
  | p :: q :: rest => by
    rw [calculate_path_distance]
    have := calculate_path_distance_nonneg (q :: rest)
    have := dist2_nonneg p q
    linarith

lemma origWalk_nonneg : ∀ (last : Option (ℝ × ℝ)) (es : List PathEntity),
    0 ≤ origWalk last es
  | last, [] => by rw [origWalk]
  | none, .line s e :: rest => by
    rw [origWalk]
    have h2 := dist2_nonneg s e
    have h3 := origWalk_nonneg (some e) rest
    linarith
  | some lp, .line s e :: rest => by
    rw [origWalk]
    have h1 := dist2_nonneg lp s
    have h2 := dist2_nonneg s e
    have h3 := origWalk_nonneg (some e) rest
    linarith
  | none, .circle c r :: rest => by
    rw [origWalk]
    exact origWalk_nonneg (some c) rest
  | some lp, .circle c r :: rest => by
    rw [origWalk]
    have h1 := dist2_nonneg lp c
    have h3 := origWalk_nonneg (some c) rest
    linarith
  | last, .other :: rest => by
    rw [origWalk]
    exact origWalk_nonneg last rest

/-- The raw `savings_percent` expression of `calculate_tsp_path`:
`(original - optimized) / original * 100 if original_distance > 0 else 0`. -/
def savingsPercentRaw (es : List PathEntity) : ℝ :=
  let orig := calculate_original_distance es
  let opt := calculate_path_distance (nearest_neighbor_tsp (extractPoints es))
  if orig > 0 then (orig - opt) / orig * 100 else 0

/-- The success payload of `calculate_tsp_path` (the numeric fields the
claims read; stored values carry the source's 2-decimal rounding). -/
structure TspSuccess where
  original_distance : ℝ
  optimized_distance : ℝ
  savings_distance : ℝ
  savings_percent : ℝ
  total_points : ℕ
  path_steps : ℕ

/-- `calculate_tsp_path`: fail with "Not enough points" when fewer than two
waypoints were extracted, otherwise build the result record. -/
def calculate_tsp_path (es : List PathEntity) : Option TspSuccess :=
  let pts := extractPoints es
  if pts.length < 2 then none
  else
    let orig := calculate_original_distance es
    let opt := calculate_path_distance (nearest_neighbor_tsp pts)
    some
      { original_distance := round2 orig
        optimized_distance := round2 opt
        savings_distance := round2 (orig - opt)
        savings_percent := round2 (savingsPercentRaw es)
        total_points := pts.length
        path_steps := (nearest_neighbor_tsp pts).length }

end PathOpt

/-! ### Spec-side formulations and concrete fixtures -/

/-- Spec-side arc span in degrees: `end − start`, plus `360` only when the
raw difference is strictly negative (what the source's radian-space
comparison amounts to). -/
noncomputable def specArcSpanDeg (startAngle endAngle : ℝ) : ℝ :=
  if endAngle < startAngle then endAngle - startAngle + 360
  else endAngle - startAngle

/-- Spec-side polyline length: the distances between consecutive LISTED
vertices (the list zipped with its own tail), summed — by construction no
closing segment appears. -/
noncomputable def specConsecutiveSum (pts : List (ℝ × ℝ)) : ℝ :=
  ((pts.zip pts.tail).map fun pq => dist2 pq.1 pq.2).sum

/-- The recommendations of a nesting result (`[]` on failure). -/
def nestRecommendations : NestResult → List Advice
  | .failure _ => []
  | .success out => out.recommendations

/-- The stored utilization of the chosen arrangement (`0` on failure). -/
def nestBestUtilization : NestResult → ℚ
  | .failure _ => 0
  | .success out => out.best_arrangement.utilization

/-- Whether a nesting result is the explicit catalog-failure outcome. -/
def isSheetFailure : NestResult → Prop
  | .failure e => e = "Part too large for standard sheets"
  | .success _ => False

/-- The four catalog sheets, individually named. -/
def sheet1000 : Sheet := ⟨"1000x2000mm", 1000, 2000, 2000000, 1/10000⟩

def sheet1250 : Sheet := ⟨"1250x2500mm", 1250, 2500, 3125000, 1/10000⟩

def sheet1500 : Sheet := ⟨"1500x3000mm", 1500, 3000, 4500000, 1/10000⟩

def sheet2000 : Sheet := ⟨"2000x4000mm", 2000, 4000, 8000000, 1/10000⟩

/-- The spec's worked nesting example: a 480 x 980 mm part. -/
def bb480 : BoundingBox := ⟨480, 980, 470400⟩

/-- A degenerate but reachable bounding box: a 0.01 x 0.01 mm part whose
area field rounds to `0` (the extractor stores `round(w*h, 2)`). -/
def bbTiny : BoundingBox := ⟨1/100, 1/100, 0⟩

/-- A 10 x 110 mm part: its best sheet is 1500x3000 at 62.92% utilization,
and the swapped grid there fits 2587 > 2574 parts. -/
def bbRot : BoundingBox := ⟨10, 110, 1100⟩

/-- A single LINE of length 0.004 mm: its exact length is stored in the
entity list, but `total_length` rounds to `0.0`. -/
noncomputable def tinyLine : Entity := .line (0, 0) (1/250, 0)

/-- Two collinear lines, the spec's own path example fixture. -/
noncomputable def exPathEntities : List PathEntity :=
  [.line (0, 0) (10, 0), .line (20, 0) (30, 0)]

/-- The stored `savings_percent` of a path result (`0` on failure). -/
noncomputable def tspSavingsPercent : Option TspSuccess → ℝ
  | none => 0
  | some out => out.savings_percent

/-- A nesting result is a success. -/
def isSuccess : NestResult → Prop
  | .failure _ => False
  | .success _ => True

/-- The chosen arrangement of a nesting result (a zeroed dummy on failure). -/
def nestBestArrangement : NestResult → Arrangement
  | .failure _ => ⟨"", 0, 0, 0, 0, 0, 0, 0, 0, 0, 0, []⟩
  | .success out => out.best_arrangement

/-- The candidate list of a nesting result (`[]` on failure). -/
def nestAllArrangements : NestResult → List Arrangement
  | .failure _ => []
  | .success out => out.all_arrangements

/-- Some rotated-grid advisory is present in a recommendation list. -/
def hasRotationAdvice (l : List Advice) : Prop :=
  ∃ r c : ℤ, Advice.rotationWouldFit r c ∈ l

/-! ### Claim theorems -/

/-- C10: the nesting evaluator's output depends only on the bounding box and
the fixed catalog — material and thickness never influence the result. -/
theorem nesting_ignores_material_thickness (bb : BoundingBox)
    (m1 m2 : String) (t1 t2 : ℚ) :
    calculate_optimal_nesting bb m1 t1 = calculate_optimal_nesting bb m2 t2 := rfl

lemma polylineLengthAux_eq_spec :
    ∀ pts : List (ℝ × ℝ), polylineLengthAux pts = specConsecutiveSum pts
  | [] => by simp [polylineLengthAux, specConsecutiveSum]
  | [p] => by simp [polylineLengthAux, specConsecutiveSum]
  | p :: q :: rest => by
    rw [polylineLengthAux, polylineLengthAux_eq_spec (q :: rest)]
    simp [specConsecutiveSum]

/-- C7: a polyline's computed length is the sum of Euclidean distances
between consecutive listed vertices only; the closing segment is never
added, and the closed flag has no influence at all. -/
theorem polyline_length_no_closing_segment (pts : List (ℝ × ℝ)) (c1 c2 : Bool) :
    calculate_polyline_length ⟨pts, c1⟩ = specConsecutiveSum pts ∧
    calculate_polyline_length ⟨pts, c1⟩ = calculate_polyline_length ⟨pts, c2⟩ :=
  ⟨polylineLengthAux_eq_spec pts, rfl⟩

/-- C2 counterexample: an arc with `end_angle = start_angle` gets length
`0`, not the full-circle length `r * 2π` the claim requires. -/
theorem arc_equal_angles_counterexample :
    calculate_arc_length 1 0 0 ≠ 1 * (2 * Real.pi) := by
  have h : calculate_arc_length 1 0 0 = 0 := by
    simp [calculate_arc_length, radians]
  rw [h]
  have hpi := Real.pi_pos
  intro hc
  linarith

/-- C2 amended: `2π` is added only when the raw difference is strictly
negative; for `-360 < end − start ≤ 360` the span lies in `[0, 2π]` and is
`0` exactly when the angles coincide (so an arc with equal angles has
length `0`, not `2πr`). -/
theorem arc_length_forward_normalization (r sa ea : ℝ)
    (h1 : sa - 360 < ea) (h2 : ea ≤ sa + 360) :
    calculate_arc_length r sa ea = r * radians (specArcSpanDeg sa ea) ∧
    0 ≤ radians (specArcSpanDeg sa ea) ∧
    radians (specArcSpanDeg sa ea) ≤ 2 * Real.pi ∧
    (radians (specArcSpanDeg sa ea) = 0 ↔ ea = sa) := by
  have hpi : (0:ℝ) < Real.pi := Real.pi_pos
  have hk : (0:ℝ) < Real.pi / 180 := by positivity
  have hre : ∀ d : ℝ, radians d = d * (Real.pi / 180) := fun d => by
    rw [radians]; ring
  have hmono : radians ea < radians sa ↔ ea < sa := by
    rw [hre, hre]
    exact mul_lt_mul_right hk
  by_cases hlt : ea < sa
  · have hcond : radians ea < radians sa := hmono.mpr hlt
    refine ⟨?_, ?_, ?_, ?_⟩
    · simp only [calculate_arc_length, specArcSpanDeg, if_pos hcond, if_pos hlt]
      rw [radians, radians, radians]
      ring
    · rw [specArcSpanDeg, if_pos hlt, hre]
      have hs : 0 ≤ ea - sa + 360 := by linarith
      positivity
    · rw [specArcSpanDeg, if_pos hlt, hre]
      have hs : ea - sa + 360 ≤ 360 := by linarith
      nlinarith
    · refine iff_of_false ?_ (ne_of_lt hlt)
      rw [specArcSpanDeg, if_pos hlt, hre]
      have hs : 0 < ea - sa + 360 := by linarith
      positivity
  · have hcond : ¬ radians ea < radians sa := fun hc => hlt (hmono.mp hc)
    have hge : sa ≤ ea := not_lt.mp hlt
    refine ⟨?_, ?_, ?_, ?_⟩
    · simp only [calculate_arc_length, specArcSpanDeg, if_neg hcond, if_neg hlt]
      simp only [radians]
      ring
    · rw [specArcSpanDeg, if_neg hlt, hre]
      have hs : 0 ≤ ea - sa := by linarith
      positivity
    · rw [specArcSpanDeg, if_neg hlt, hre]
      have hs : ea - sa ≤ 360 := by linarith
      nlinarith
    · rw [specArcSpanDeg, if_neg hlt, hre]
      constructor
      · intro h0
        rcases mul_eq_zero.mp h0 with h | h
        · linarith [sub_eq_zero.mp h]
        · exfalso
          have hp0 : Real.pi = 0 := by
            field_simp at h
            exact h
          linarith
      · intro heq
        rw [heq]
        ring

theorem arc_length_forward_normalization_witness :
    ((90:ℝ) - 360 < 30 ∧ (30:ℝ) ≤ 90 + 360) ∧
    (calculate_arc_length 2 90 30 = 2 * radians (specArcSpanDeg 90 30) ∧
     0 ≤ radians (specArcSpanDeg 90 30) ∧
     radians (specArcSpanDeg 90 30) ≤ 2 * Real.pi ∧
     (radians (specArcSpanDeg 90 30) = 0 ↔ (30:ℝ) = 90)) :=
  ⟨⟨by norm_num, by norm_num⟩,
   arc_length_forward_normalization 2 90 30 (by norm_num) (by norm_num)⟩

/-- C8: for non-negative metric inputs the complexity score is within
`[0, 100]`, and the all-zero drawing scores exactly `0`. -/
theorem complexity_score_bounded (g : ComplexityInput) (h : 0 ≤ g.area) :
    (0 ≤ calculate_complexity_score g ∧ calculate_complexity_score g ≤ 100) ∧
    calculate_complexity_score ⟨0, 0, 0, 0, 0, 0, 0, 0⟩ = 0 := by
  refine ⟨⟨?_, ?_⟩, ?_⟩
  · simp only [calculate_complexity_score]
    apply round1_nonneg
    refine le_min (by norm_num) ?_
    have h1 : (0:ℚ) ≤ min 30 ((totalEntities g : ℚ) / 10) :=
      le_min (by norm_num) (by positivity)
    have h2 : (0:ℚ) ≤ (entityTypes g : ℚ) * (333/100) := by positivity
    have h3 : (0:ℚ) ≤ min 15 ((g.layer_count : ℚ) * 2) :=
      le_min (by norm_num) (by positivity)
    have h4 : (0:ℚ) ≤
        (if g.spline_count > 0 then min 15 ((g.spline_count : ℚ) / 2) else 0) := by
      split_ifs
      · exact le_min (by norm_num) (by positivity)
      · exact le_refl 0
    have h5 : (0:ℚ) ≤
        (if g.area > 0 then
          if g.area > 1000000 then (10:ℚ)
          else if g.area > 100000 then 7
          else if g.area > 10000 then 5
          else 2
        else 0) := by
      split_ifs <;> norm_num
    have h6 : (0:ℚ) ≤
        (if g.area > 0 then
          if (totalEntities g : ℚ) / g.area > 1 then
            min 10 ((totalEntities g : ℚ) / g.area * 2)
          else 0
        else 0) := by
      split_ifs with ha hd
      · refine le_min (by norm_num) ?_
        positivity
      · exact le_refl 0
      · exact le_refl 0
    linarith
  · simp only [calculate_complexity_score]
    exact round1_le_hundred (min_le_left _ _)
  · simp only [calculate_complexity_score, totalEntities, entityTypes]
    norm_num
    exact round1_zero

theorem complexity_score_bounded_witness :
    (0:ℚ) ≤ ComplexityInput.area ⟨0, 0, 0, 0, 0, 0, 0, 0⟩ ∧
    ((0 ≤ calculate_complexity_score ⟨0, 0, 0, 0, 0, 0, 0, 0⟩ ∧
      calculate_complexity_score ⟨0, 0, 0, 0, 0, 0, 0, 0⟩ ≤ 100) ∧
     calculate_complexity_score ⟨0, 0, 0, 0, 0, 0, 0, 0⟩ = 0) :=
  ⟨by norm_num, complexity_score_bounded ⟨0, 0, 0, 0, 0, 0, 0, 0⟩ (by norm_num)⟩

lemma processFold_fst : ∀ (es : List Entity) (t : ℝ) (rs : List EntityRecord),
    (es.foldl processStep (t, rs)).1 = t + (es.map entityLength).sum
  | [], t, rs => by simp
  | e :: rest, t, rs => by
    rw [List.foldl_cons, List.map_cons, List.sum_cons]
    rw [show processStep (t, rs) e
        = (t + entityLength e, rs ++ [⟨etypeName e, storedLength e⟩]) from rfl]
    rw [processFold_fst rest]
    ring

/-- C1 amended: the stored `total_length` is the 2-decimal rounding of the
exact sum of the entity lengths; since the per-entity stored lengths are
themselves rounded (except LINE records), re-summing the entity list only
reproduces `total_length` up to rounding error, not exactly. -/
theorem total_length_is_rounded_sum (es : List Entity) :
    (process_dxf es).total_length = round2 ((es.map entityLength).sum) := by
  show round2 ((es.foldl processStep (0, [])).1) = round2 ((es.map entityLength).sum)
  rw [processFold_fst]
  rw [zero_add]

/-- C1 counterexample: for a drawing holding one LINE of length `1/250` mm,
the entity list stores `1/250` but `total_length` rounds to `0`, so the
re-summed entity lengths do not reproduce `total_length`. -/
theorem total_length_resum_counterexample :
    ((process_dxf [tinyLine]).entities.map EntityRecord.length).sum ≠
      (process_dxf [tinyLine]).total_length := by
  have hd : dist2 (0, 0) ((1:ℝ)/250, 0) = 1/250 := by
    show Real.sqrt (((1:ℝ)/250 - 0) * ((1:ℝ)/250 - 0) + ((0:ℝ) - 0) * ((0:ℝ) - 0))
        = 1/250
    have harg : ((1:ℝ)/250 - 0) * ((1:ℝ)/250 - 0) + ((0:ℝ) - 0) * ((0:ℝ) - 0)
        = (1/250) * (1/250) := by norm_num
    rw [harg, Real.sqrt_mul_self (by norm_num : (0:ℝ) ≤ 1/250)]
  have hsum : ((process_dxf [tinyLine]).entities.map EntityRecord.length).sum
      = 1/250 := by
    show (((([] : List EntityRecord) ++
        [(⟨etypeName tinyLine, storedLength tinyLine⟩ : EntityRecord)]).map
          EntityRecord.length).sum : ℝ) = 1/250
    have hstored : storedLength tinyLine = 1/250 := by
      show calculate_line_length (0, 0) (1/250, 0) = 1/250
      rw [calculate_line_length]
      exact hd
    simp [hstored]
  have htot : (process_dxf [tinyLine]).total_length = 0 := by
    show round2 (((0:ℝ) + entityLength tinyLine)) = 0
    have hel : entityLength tinyLine = 1/250 := by
      show calculate_line_length (0, 0) (1/250, 0) = 1/250
      rw [calculate_line_length]
      exact hd
    rw [hel]
    have := round2_eval (x := ((0:ℝ) + 1/250)) 0 (by norm_num) (by norm_num)
    rw [this]
    norm_num
  rw [hsum, htot]
  norm_num

/-- C9: on every run reaching the optimization (at least 2 waypoints), the
stored `savings_percent` is at most 100, and an original distance of zero
forces it to exactly 0 (the division is guarded). -/
theorem savings_percent_guarded (es : List PathEntity)
    (h : 2 ≤ (extractPoints es).length) :
    (calculate_tsp_path es).isSome ∧
    tspSavingsPercent (calculate_tsp_path es) ≤ 100 ∧
    (calculate_original_distance es = 0 →
      tspSavingsPercent (calculate_tsp_path es) = 0) := by
  have hnot : ¬ (extractPoints es).length < 2 := by omega
  have hcalc : calculate_tsp_path es = some
      { original_distance := round2 (calculate_original_distance es)
        optimized_distance :=
          round2 (calculate_path_distance (nearest_neighbor_tsp (extractPoints es)))
        savings_distance := round2 (calculate_original_distance es -
          calculate_path_distance (nearest_neighbor_tsp (extractPoints es)))
        savings_percent := round2 (savingsPercentRaw es)
        total_points := (extractPoints es).length
        path_steps := (nearest_neighbor_tsp (extractPoints es)).length } := by
    rw [calculate_tsp_path]
    simp only [if_neg hnot]
  refine ⟨by rw [hcalc]; rfl, ?_, ?_⟩
  · rw [hcalc, tspSavingsPercent]
    apply round2_le_hundred
    rw [savingsPercentRaw]
    split_ifs with hpos
    · have hopt : 0 ≤ calculate_path_distance (nearest_neighbor_tsp (extractPoints es)) :=
        calculate_path_distance_nonneg _
      have hle : (calculate_original_distance es -
          calculate_path_distance (nearest_neighbor_tsp (extractPoints es))) /
          calculate_original_distance es ≤ 1 :=
        div_le_one_of_le (by linarith) (le_of_lt hpos)
      linarith
    · norm_num
  · intro h0
    rw [hcalc, tspSavingsPercent]
    rw [savingsPercentRaw]
    rw [if_neg (by rw [h0]; exact lt_irrefl 0)]
    exact round2_zero

theorem savings_percent_guarded_witness :
    2 ≤ (extractPoints exPathEntities).length ∧
    ((calculate_tsp_path exPathEntities).isSome ∧
     tspSavingsPercent (calculate_tsp_path exPathEntities) ≤ 100 ∧
     (calculate_original_distance exPathEntities = 0 →
       tspSavingsPercent (calculate_tsp_path exPathEntities) = 0)) :=
  ⟨by simp [exPathEntities, extractPoints],
   savings_percent_guarded exPathEntities (by simp [exPathEntities, extractPoints])⟩

/-- C5: for at least 2 waypoints the tour is a permutation of the waypoints
starting at the first one, and each greedy step selects an unvisited
waypoint of minimal Euclidean distance, ties resolved toward the earliest
scan position; determinism is immediate since the embedded algorithm is a
pure function of its input. -/
theorem nearest_neighbor_tour_spec (pts : List (ℝ × ℝ)) (h : 2 ≤ pts.length) :
    (nearest_neighbor_tsp pts).Perm pts ∧
    (nearest_neighbor_tsp pts).head? = pts.head? ∧
    (∀ (cur q : ℝ × ℝ) (ps : List (ℝ × ℝ)),
      (∀ x ∈ q :: ps, dist2 cur (chosen cur (q :: ps)) ≤ dist2 cur x) ∧
      (∀ j, ∀ hj : j < nearestIdx cur (q :: ps),
        dist2 cur (chosen cur (q :: ps)) <
          dist2 cur ((q :: ps).get ⟨j, Nat.lt_trans hj (nearestIdx_lt cur q ps)⟩))) := by
  match pts, h with
  | p :: q :: rest, _ =>
    refine ⟨?_, rfl, fun cur q' ps => ⟨chosen_min cur q' ps, chosen_earliest cur q' ps⟩⟩
    show (p :: nnTour p (q :: rest)).Perm (p :: q :: rest)
    exact (nnTour_perm p (q :: rest)).cons p

theorem nearest_neighbor_tour_spec_witness :
    2 ≤ ([((0:ℝ), (0:ℝ)), ((3:ℝ), (4:ℝ))]).length ∧
    ((nearest_neighbor_tsp [((0:ℝ), (0:ℝ)), ((3:ℝ), (4:ℝ))]).Perm
        [((0:ℝ), (0:ℝ)), ((3:ℝ), (4:ℝ))] ∧
     (nearest_neighbor_tsp [((0:ℝ), (0:ℝ)), ((3:ℝ), (4:ℝ))]).head? =
        ([((0:ℝ), (0:ℝ)), ((3:ℝ), (4:ℝ))]).head? ∧
     (∀ (cur q : ℝ × ℝ) (ps : List (ℝ × ℝ)),
       (∀ x ∈ q :: ps, dist2 cur (chosen cur (q :: ps)) ≤ dist2 cur x) ∧
       (∀ j, ∀ hj : j < nearestIdx cur (q :: ps),
         dist2 cur (chosen cur (q :: ps)) <
           dist2 cur ((q :: ps).get ⟨j, Nat.lt_trans hj (nearestIdx_lt cur q ps)⟩)))) :=
  ⟨by norm_num, nearest_neighbor_tour_spec [((0:ℝ), (0:ℝ)), ((3:ℝ), (4:ℝ))] (by norm_num)⟩

lemma mkArrangement_total_parts (bb : BoundingBox) (s : Sheet) :
    (mkArrangement bb s).total_parts = totalParts bb s := rfl

lemma mkArrangement_utilization (bb : BoundingBox) (s : Sheet) :
    (mkArrangement bb s).utilization = round2 (utilRaw bb s) := rfl

lemma mkArrangement_sheet_width (bb : BoundingBox) (s : Sheet) :
    (mkArrangement bb s).sheet_width = s.width := rfl

lemma mkArrangement_sheet_height (bb : BoundingBox) (s : Sheet) :
    (mkArrangement bb s).sheet_height = s.height := rfl

/-- Full characterization of the selection loop: either nothing beat the
incoming best (and every sheet was skipped or not strictly better), or the
final best is the arrangement of the FIRST sheet attaining the maximal raw
utilization among non-skipped sheets, strictly above the incoming bound. -/
lemma nestLoop_spec (bb : BoundingBox) :
    ∀ (sheets : List Sheet) (bu : ℚ) (best : Option Arrangement),
      ((nestLoop bb sheets bu best).2 = best ∧
        ∀ s ∈ sheets, totalParts bb s = 0 ∨ utilRaw bb s ≤ bu)
      ∨ ∃ i, ∃ hi : i < sheets.length,
          (nestLoop bb sheets bu best).2 =
            some (mkArrangement bb (sheets.get ⟨i, hi⟩)) ∧
          totalParts bb (sheets.get ⟨i, hi⟩) ≠ 0 ∧
          bu < utilRaw bb (sheets.get ⟨i, hi⟩) ∧
          (∀ j, ∀ hj : j < i,
            totalParts bb (sheets.get ⟨j, Nat.lt_trans hj hi⟩) = 0 ∨
              utilRaw bb (sheets.get ⟨j, Nat.lt_trans hj hi⟩) <
                utilRaw bb (sheets.get ⟨i, hi⟩)) ∧
          (∀ j, ∀ hj : j < sheets.length,
            totalParts bb (sheets.get ⟨j, hj⟩) = 0 ∨
              utilRaw bb (sheets.get ⟨j, hj⟩) ≤ utilRaw bb (sheets.get ⟨i, hi⟩)) := by
  intro sheets
  induction sheets with
  | nil =>
    intro bu best
    left
    exact ⟨rfl, by simp⟩
  | cons s rest ih =>
    intro bu best
    rw [nestLoop]
    split_ifs with htp hgt
    · -- total_parts = 0 : sheet skipped entirely
      rcases ih bu best with ⟨heq, hall⟩ | ⟨i, hi, heq, htpi, hbu, hprior, hall⟩
      · left
        refine ⟨heq, ?_⟩
        intro x hx
        rcases List.mem_cons.mp hx with hx | hx
        · left; rw [hx]; exact htp
        · exact hall x hx
      · right
        refine ⟨i + 1, by simpa using Nat.succ_lt_succ hi, ?_, ?_, ?_, ?_, ?_⟩
        · simpa using heq
        · simpa using htpi
        · simpa using hbu
        · intro j hj
          match j, hj with
          | 0, _ => left; simpa using htp
          | j' + 1, hj =>
            have hj' : j' < i := by omega
            simpa using hprior j' hj'
        · intro j hj
          match j, hj with
          | 0, _ => left; simpa using htp
          | j' + 1, hj =>
            have hj' : j' < rest.length := by simpa using hj
            simpa using hall j' hj'
    · -- strictly better than the running best: becomes the new best
      rcases ih (utilRaw bb s) (some (mkArrangement bb s)) with
        ⟨heq, hall⟩ | ⟨i, hi, heq, htpi, hbu, hprior, hall⟩
      · right
        refine ⟨0, by simp, ?_, ?_, ?_, ?_, ?_⟩
        · simpa using heq
        · simpa using htp
        · simpa using hgt
        · intro j hj; omega
        · intro j hj
          match j, hj with
          | 0, _ => right; simp
          | j' + 1, hj =>
            have hj' : j' < rest.length := by simpa using hj
            have := hall (rest.get ⟨j', hj'⟩) (List.get_mem rest j' hj')
            simpa using this
      · right
        refine ⟨i + 1, by simpa using Nat.succ_lt_succ hi, ?_, ?_, ?_, ?_, ?_⟩
        · simpa using heq
        · simpa using htpi
        · simp only [List.get_cons_succ] at hbu ⊢
          exact lt_trans hgt hbu
        · intro j hj
          match j, hj with
          | 0, _ =>
            right
            simpa using hbu
          | j' + 1, hj =>
            have hj' : j' < i := by omega
            simpa using hprior j' hj'
        · intro j hj
          match j, hj with
          | 0, _ =>
            right
            simpa using le_of_lt hbu
          | j' + 1, hj =>
            have hj' : j' < rest.length := by simpa using hj
            simpa using hall j' hj'
    · -- candidate but not strictly better: best unchanged
      have hle : utilRaw bb s ≤ bu := not_lt.mp hgt
      rcases ih bu best with ⟨heq, hall⟩ | ⟨i, hi, heq, htpi, hbu, hprior, hall⟩
      · left
        refine ⟨heq, ?_⟩
        intro x hx
        rcases List.mem_cons.mp hx with hx | hx
        · right; rw [hx]; exact hle
        · exact hall x hx
      · right
        refine ⟨i + 1, by simpa using Nat.succ_lt_succ hi, ?_, ?_, ?_, ?_, ?_⟩
        · simpa using heq
        · simpa using htpi
        · simpa using hbu
        · intro j hj
          match j, hj with
          | 0, _ =>
            right
            have : utilRaw bb s ≤ bu := hle
            simp only [List.get_cons_succ, List.get_cons_zero]
            exact lt_of_le_of_lt this (by simpa using hbu)
          | j' + 1, hj =>
            have hj' : j' < i := by omega
            simpa using hprior j' hj'
        · intro j hj
          match j, hj with
          | 0, _ =>
            right
            simp only [List.get_cons_succ, List.get_cons_zero]
            exact le_trans hle (le_of_lt (by simpa using hbu))
          | j' + 1, hj =>
            have hj' : j' < rest.length := by simpa using hj
            simpa using hall j' hj'

/-- Evaluate `pyInt` at a concrete nonnegative rational. -/
lemma pyInt_eval {x : ℚ} (n : ℤ) (h0 : 0 ≤ n) (h1 : (n : ℚ) ≤ x)
    (h2 : x < (n : ℚ) + 1) : pyInt x = n := by
  have hx : 0 ≤ x := le_trans (by exact_mod_cast h0) h1
  rw [pyInt_of_nonneg hx, Int.floor_eq_iff]
  exact ⟨h1, h2⟩

lemma sheet_mem_pos {s : Sheet} (hs : s ∈ standard_sheets) :
    5 < s.width ∧ 5 < s.height ∧ 0 < s.area := by
  simp only [standard_sheets, List.mem_cons, List.not_mem_nil, or_false] at hs
  rcases hs with rfl | rfl | rfl | rfl <;>
    exact ⟨by norm_num, by norm_num, by norm_num⟩

lemma partsX_nonneg {bb : BoundingBox} {s : Sheet} (hw : 0 < bb.width)
    (hs : s ∈ standard_sheets) : 0 ≤ partsX bb s := by
  have h5 := (sheet_mem_pos hs).1
  have harg : 0 ≤ (s.width - spacing) / (bb.width + spacing) := by
    apply div_nonneg
    · rw [spacing]; linarith
    · rw [spacing]; linarith
  rw [partsX, pyInt_of_nonneg harg]
  exact Int.floor_nonneg.mpr harg

lemma partsY_nonneg {bb : BoundingBox} {s : Sheet} (hh : 0 < bb.height)
    (hs : s ∈ standard_sheets) : 0 ≤ partsY bb s := by
  have h5 := (sheet_mem_pos hs).2.1
  have harg : 0 ≤ (s.height - spacing) / (bb.height + spacing) := by
    apply div_nonneg
    · rw [spacing]; linarith
    · rw [spacing]; linarith
  rw [partsY, pyInt_of_nonneg harg]
  exact Int.floor_nonneg.mpr harg

lemma totalParts_one_le {bb : BoundingBox} {s : Sheet} (hw : 0 < bb.width)
    (hh : 0 < bb.height) (hs : s ∈ standard_sheets)
    (htp : totalParts bb s ≠ 0) : 1 ≤ totalParts bb s := by
  have h0 : 0 ≤ totalParts bb s :=
    mul_nonneg (partsX_nonneg hw hs) (partsY_nonneg hh hs)
  omega

lemma utilRaw_pos {bb : BoundingBox} {s : Sheet} (hw : 0 < bb.width)
    (hh : 0 < bb.height) (ha : 0 < bb.area) (hs : s ∈ standard_sheets)
    (htp : totalParts bb s ≠ 0) : 0 < utilRaw bb s := by
  have h1 : (1 : ℚ) ≤ (totalParts bb s : ℚ) := by
    exact_mod_cast totalParts_one_le hw hh hs htp
  have hsa := (sheet_mem_pos hs).2.2
  rw [utilRaw]
  have htpa : 0 < (totalParts bb s : ℚ) * bb.area := by nlinarith
  positivity

/-- Every candidate arrangement the loop reports fits at least one part. -/
lemma nestLoop_results_nonzero (bb : BoundingBox) :
    ∀ (sheets : List Sheet) (bu : ℚ) (best : Option Arrangement) (a : Arrangement),
      a ∈ (nestLoop bb sheets bu best).1 → a.total_parts ≠ 0 := by
  intro sheets
  induction sheets with
  | nil =>
    intro bu best a ha
    simp [nestLoop] at ha
  | cons s rest ih =>
    intro bu best a ha
    rw [nestLoop] at ha
    split_ifs at ha with htp hgt
    · exact ih bu best a ha
    · rcases List.mem_cons.mp ha with h | h
      · rw [h, mkArrangement_total_parts]; exact htp
      · exact ih (utilRaw bb s) (some (mkArrangement bb s)) a h
    · rcases List.mem_cons.mp ha with h | h
      · rw [h, mkArrangement_total_parts]; exact htp
      · exact ih bu best a h

/-- C3 amended: for a part with positive width, height and area, the
explicit catalog failure is returned iff every sheet fits zero parts;
otherwise the result is a success whose candidates all fit at least one
part and whose chosen arrangement belongs to the first sheet attaining the
strictly-highest raw utilization (earlier sheets are skipped or strictly
worse, no sheet is better).  When the part's area field is 0 (possible
after the extractor's 2-decimal rounding) the failure is returned even
though sheets fit parts — see the counterexample. -/
theorem nesting_failure_and_selection (bb : BoundingBox) (m : String) (t : ℚ)
    (hw : 0 < bb.width) (hh : 0 < bb.height) (ha : 0 < bb.area) :
    (isSheetFailure (calculate_optimal_nesting bb m t) ↔
      ∀ s ∈ standard_sheets, totalParts bb s = 0) ∧
    (isSuccess (calculate_optimal_nesting bb m t) →
      (∀ a ∈ nestAllArrangements (calculate_optimal_nesting bb m t),
        a.total_parts ≠ 0) ∧
      ∃ i, ∃ hi : i < standard_sheets.length,
        nestBestArrangement (calculate_optimal_nesting bb m t) =
          mkArrangement bb (standard_sheets.get ⟨i, hi⟩) ∧
        totalParts bb (standard_sheets.get ⟨i, hi⟩) ≠ 0 ∧
        0 < utilRaw bb (standard_sheets.get ⟨i, hi⟩) ∧
        (∀ j, ∀ hj : j < i,
          totalParts bb (standard_sheets.get ⟨j, Nat.lt_trans hj hi⟩) = 0 ∨
            utilRaw bb (standard_sheets.get ⟨j, Nat.lt_trans hj hi⟩) <
              utilRaw bb (standard_sheets.get ⟨i, hi⟩)) ∧
        (∀ j, ∀ hj : j < standard_sheets.length,
          totalParts bb (standard_sheets.get ⟨j, hj⟩) = 0 ∨
            utilRaw bb (standard_sheets.get ⟨j, hj⟩) ≤
              utilRaw bb (standard_sheets.get ⟨i, hi⟩))) := by
  have hne : ¬ (bb.width = 0 ∨ bb.height = 0) := by
    rintro (h | h) <;> linarith
  have hcalc : calculate_optimal_nesting bb m t =
      (match (nestLoop bb standard_sheets 0 none).2 with
       | none => NestResult.failure "Part too large for standard sheets"
       | some bestArr =>
         NestResult.success ⟨round2 bb.width, round2 bb.height, round2 bb.area,
           bestArr, (nestLoop bb standard_sheets 0 none).1,
           generate_nesting_recommendations bestArr bb.width bb.height⟩) := by
    rw [calculate_optimal_nesting, if_neg hne]
  rcases nestLoop_spec bb standard_sheets 0 none with
    ⟨heq, hall⟩ | ⟨i, hi, heq, htpi, hbu, hprior, hallj⟩
  · have hres : calculate_optimal_nesting bb m t =
        .failure "Part too large for standard sheets" := by
      rw [hcalc, heq]
    constructor
    · rw [hres]
      constructor
      · intro _ s hs
        rcases hall s hs with h | h
        · exact h
        · by_contra htp
          have := utilRaw_pos hw hh ha hs htp
          linarith
      · intro _
        show ("Part too large for standard sheets" : String) = _
        rfl
    · intro hsucc
      rw [hres] at hsucc
      exact hsucc.elim
  · have hres : calculate_optimal_nesting bb m t =
        .success ⟨round2 bb.width, round2 bb.height, round2 bb.area,
          mkArrangement bb (standard_sheets.get ⟨i, hi⟩),
          (nestLoop bb standard_sheets 0 none).1,
          generate_nesting_recommendations
            (mkArrangement bb (standard_sheets.get ⟨i, hi⟩)) bb.width bb.height⟩ := by
      rw [hcalc, heq]
    constructor
    · rw [hres]
      apply iff_of_false
      · exact fun hf => hf
      · intro hallzero
        exact htpi (hallzero _ (List.get_mem _ _ _))
    · intro _
      constructor
      · intro a haa
        refine nestLoop_results_nonzero bb standard_sheets 0 none a ?_
        rw [hres] at haa
        exact haa
      · exact ⟨i, hi, by rw [hres]; rfl, htpi, hbu, hprior, hallj⟩

/-- C3 counterexample: the 0.01 x 0.01 mm part with stored area 0 makes the
evaluator return the catalog failure although the first catalog sheet fits
198 x 398 parts — the claimed "iff no sheet fits at least one part" fails. -/
theorem nesting_failure_counterexample :
    isSheetFailure (calculate_optimal_nesting bbTiny "steel" 1) ∧
    sheet1000 ∈ standard_sheets ∧ totalParts bbTiny sheet1000 ≠ 0 := by
  have hutil : ∀ s : Sheet, utilRaw bbTiny s = 0 := by
    intro s
    rw [utilRaw]
    show (totalParts bbTiny s : ℚ) * (0:ℚ) / s.area * 100 = 0
    ring
  refine ⟨?_, ?_, ?_⟩
  · have hne : ¬ (bbTiny.width = 0 ∨ bbTiny.height = 0) := by
      rintro (h | h) <;> simp [bbTiny] at h
    have hloop : (nestLoop bbTiny standard_sheets 0 none).2 = none := by
      rcases nestLoop_spec bbTiny standard_sheets 0 none with
        ⟨heq, _⟩ | ⟨i, hi, _, _, hbu, _, _⟩
      · exact heq
      · rw [hutil] at hbu
        exact absurd hbu (lt_irrefl 0)
    rw [calculate_optimal_nesting, if_neg hne]
    show isSheetFailure (match (nestLoop bbTiny standard_sheets 0 none).2 with
      | none => NestResult.failure "Part too large for standard sheets"
      | some bestArr => NestResult.success ⟨round2 bbTiny.width, round2 bbTiny.height,
          round2 bbTiny.area, bestArr, (nestLoop bbTiny standard_sheets 0 none).1,
          generate_nesting_recommendations bestArr bbTiny.width bbTiny.height⟩)
    rw [hloop]
    rfl
  · exact List.mem_cons_self _ _
  · have hx : partsX bbTiny sheet1000 = 198 := by
      have harg : (sheet1000.width - spacing) / (bbTiny.width + spacing)
          = 99500/501 := by
        show ((1000:ℚ) - 5) / (1/100 + 5) = 99500/501
        norm_num
      rw [partsX, harg]
      exact pyInt_eval 198 (by norm_num) (by norm_num) (by norm_num)
    have hy : partsY bbTiny sheet1000 = 398 := by
      have harg : (sheet1000.height - spacing) / (bbTiny.height + spacing)
          = 199500/501 := by
        show ((2000:ℚ) - 5) / (1/100 + 5) = 199500/501
        norm_num
      rw [partsY, harg]
      exact pyInt_eval 398 (by norm_num) (by norm_num) (by norm_num)
    rw [totalParts, hx, hy]
    norm_num

theorem nesting_failure_and_selection_witness :
    ((0:ℚ) < bb480.width ∧ (0:ℚ) < bb480.height ∧ (0:ℚ) < bb480.area) ∧
    ((isSheetFailure (calculate_optimal_nesting bb480 "steel" 1) ↔
      ∀ s ∈ standard_sheets, totalParts bb480 s = 0) ∧
    (isSuccess (calculate_optimal_nesting bb480 "steel" 1) →
      (∀ a ∈ nestAllArrangements (calculate_optimal_nesting bb480 "steel" 1),
        a.total_parts ≠ 0) ∧
      ∃ i, ∃ hi : i < standard_sheets.length,
        nestBestArrangement (calculate_optimal_nesting bb480 "steel" 1) =
          mkArrangement bb480 (standard_sheets.get ⟨i, hi⟩) ∧
        totalParts bb480 (standard_sheets.get ⟨i, hi⟩) ≠ 0 ∧
        0 < utilRaw bb480 (standard_sheets.get ⟨i, hi⟩) ∧
        (∀ j, ∀ hj : j < i,
          totalParts bb480 (standard_sheets.get ⟨j, Nat.lt_trans hj hi⟩) = 0 ∨
            utilRaw bb480 (standard_sheets.get ⟨j, Nat.lt_trans hj hi⟩) <
              utilRaw bb480 (standard_sheets.get ⟨i, hi⟩)) ∧
        (∀ j, ∀ hj : j < standard_sheets.length,
          totalParts bb480 (standard_sheets.get ⟨j, hj⟩) = 0 ∨
            utilRaw bb480 (standard_sheets.get ⟨j, hj⟩) ≤
              utilRaw bb480 (standard_sheets.get ⟨i, hi⟩)))) :=
  ⟨⟨by norm_num [bb480], by norm_num [bb480], by norm_num [bb480]⟩,
   nesting_failure_and_selection bb480 "steel" 1
     (by norm_num [bb480]) (by norm_num [bb480]) (by norm_num [bb480])⟩

lemma bb480_px : partsX bb480 sheet1000 = 2 := by
  rw [partsX, show (sheet1000.width - spacing) / (bb480.width + spacing) = 199/97
      from by norm_num [sheet1000, bb480, spacing]]
  exact pyInt_eval 2 (by norm_num) (by norm_num) (by norm_num)

lemma bb480_py : partsY bb480 sheet1000 = 2 := by
  rw [partsY, show (sheet1000.height - spacing) / (bb480.height + spacing) = 399/197
      from by norm_num [sheet1000, bb480, spacing]]
  exact pyInt_eval 2 (by norm_num) (by norm_num) (by norm_num)

lemma bb480_tp : totalParts bb480 sheet1000 = 4 := by
  rw [totalParts, bb480_px, bb480_py]
  norm_num

lemma bb480_util : utilRaw bb480 sheet1000 = 9408/100 := by
  rw [utilRaw, bb480_tp]
  show ((4:ℤ) : ℚ) * bb480.area / sheet1000.area * 100 = 9408/100
  norm_num [bb480, sheet1000]

/-- C6: the per-sheet grid formulas (floor divisions with the 5 mm spacing,
`total_parts` as their product, utilization as covered fraction), together
with the spec's 480 x 980 mm example on the 1000 x 2000 mm sheet:
2 x 2 parts at a stored utilization of 94.08%. -/
theorem grid_formulas_and_example (bb : BoundingBox) (s : Sheet)
    (hw : 0 < bb.width) (hh : 0 < bb.height) (hs : s ∈ standard_sheets)
    (hfit : totalParts bb s ≠ 0) :
    (partsX bb s = ⌊(s.width - spacing) / (bb.width + spacing)⌋ ∧
     partsY bb s = ⌊(s.height - spacing) / (bb.height + spacing)⌋ ∧
     totalParts bb s = partsX bb s * partsY bb s ∧
     utilRaw bb s = (totalParts bb s : ℚ) * bb.area / s.area * 100) ∧
    (partsX bb480 sheet1000 = 2 ∧ partsY bb480 sheet1000 = 2 ∧
     totalParts bb480 sheet1000 = 4 ∧
     (mkArrangement bb480 sheet1000).utilization = 9408/100) := by
  have hpos := sheet_mem_pos hs
  constructor
  · refine ⟨?_, ?_, rfl, rfl⟩
    · have harg : 0 ≤ (s.width - spacing) / (bb.width + spacing) := by
        apply div_nonneg
        · rw [spacing]; linarith [hpos.1]
        · rw [spacing]; linarith
      rw [partsX, pyInt_of_nonneg harg]
    · have harg : 0 ≤ (s.height - spacing) / (bb.height + spacing) := by
        apply div_nonneg
        · rw [spacing]; linarith [hpos.2.1]
        · rw [spacing]; linarith
      rw [partsY, pyInt_of_nonneg harg]
  · refine ⟨bb480_px, bb480_py, bb480_tp, ?_⟩
    rw [mkArrangement_utilization, bb480_util]
    rw [round2_eval 9408 (by norm_num) (by norm_num)]
    norm_num

theorem grid_formulas_and_example_witness :
    ((0:ℚ) < bb480.width ∧ (0:ℚ) < bb480.height ∧
     sheet1000 ∈ standard_sheets ∧ totalParts bb480 sheet1000 ≠ 0) ∧
    ((partsX bb480 sheet1000 =
        ⌊(sheet1000.width - spacing) / (bb480.width + spacing)⌋ ∧
      partsY bb480 sheet1000 =
        ⌊(sheet1000.height - spacing) / (bb480.height + spacing)⌋ ∧
      totalParts bb480 sheet1000 = partsX bb480 sheet1000 * partsY bb480 sheet1000 ∧
      utilRaw bb480 sheet1000 =
        (totalParts bb480 sheet1000 : ℚ) * bb480.area / sheet1000.area * 100) ∧
     (partsX bb480 sheet1000 = 2 ∧ partsY bb480 sheet1000 = 2 ∧
      totalParts bb480 sheet1000 = 4 ∧
      (mkArrangement bb480 sheet1000).utilization = 9408/100)) :=
  ⟨⟨by norm_num [bb480], by norm_num [bb480], List.mem_cons_self _ _,
    by rw [bb480_tp]; norm_num⟩,
   grid_formulas_and_example bb480 sheet1000 (by norm_num [bb480])
     (by norm_num [bb480]) (List.mem_cons_self _ _) (by rw [bb480_tp]; norm_num)⟩

/-- The rotated-grid advisory appears in the recommendation list exactly
when the swapped grid fits strictly more parts — independently of the
utilization threshold, which only gates the generic "consider rotating"
note. -/
lemma rotation_advice_mem_iff (a : Arrangement) (pw ph : ℚ) :
    hasRotationAdvice (generate_nesting_recommendations a pw ph) ↔
      rotatedTotal a pw ph > a.total_parts := by
  constructor
  · rintro ⟨r, c, hmem⟩
    rw [generate_nesting_recommendations] at hmem
    simp only [List.mem_append] at hmem
    rcases hmem with ((h | h) | h) | h
    · split_ifs at h <;> simp at h
    · split_ifs at h <;> simp at h
    · split_ifs at h <;> simp at h
    · by_contra hngt
      rw [if_neg hngt] at h
      simp at h
  · intro hgt
    refine ⟨rotatedTotal a pw ph, a.total_parts, ?_⟩
    rw [generate_nesting_recommendations]
    simp only [List.mem_append]
    right
    rw [if_pos hgt]
    simp

/-- C4 amended: the width/height-swapped grid comparison is evaluated for
EVERY successful nesting run (not only below 50% utilization — that
threshold gates only the generic "consider rotating" note); its advisory is
present iff the swapped grid fits strictly more parts, and recommendations
are a pure annotation of the already-selected best arrangement. -/
theorem rotation_advice_advisory_only (bb : BoundingBox) (m : String) (t : ℚ)
    (h : isSuccess (calculate_optimal_nesting bb m t)) :
    nestRecommendations (calculate_optimal_nesting bb m t) =
      generate_nesting_recommendations
        (nestBestArrangement (calculate_optimal_nesting bb m t)) bb.width bb.height ∧
    (hasRotationAdvice (nestRecommendations (calculate_optimal_nesting bb m t)) ↔
      rotatedTotal (nestBestArrangement (calculate_optimal_nesting bb m t))
          bb.width bb.height >
        (nestBestArrangement (calculate_optimal_nesting bb m t)).total_parts) := by
  by_cases hbad : bb.width = 0 ∨ bb.height = 0
  · rw [calculate_optimal_nesting, if_pos hbad] at h
    exact h.elim
  · have hcalc : calculate_optimal_nesting bb m t =
        (match (nestLoop bb standard_sheets 0 none).2 with
         | none => NestResult.failure "Part too large for standard sheets"
         | some bestArr =>
           NestResult.success ⟨round2 bb.width, round2 bb.height, round2 bb.area,
             bestArr, (nestLoop bb standard_sheets 0 none).1,
             generate_nesting_recommendations bestArr bb.width bb.height⟩) := by
      rw [calculate_optimal_nesting, if_neg hbad]
    cases hloop : (nestLoop bb standard_sheets 0 none).2 with
    | none =>
      rw [hcalc, hloop] at h
      exact h.elim
    | some b =>
      have hres : calculate_optimal_nesting bb m t =
          .success ⟨round2 bb.width, round2 bb.height, round2 bb.area, b,
            (nestLoop bb standard_sheets 0 none).1,
            generate_nesting_recommendations b bb.width bb.height⟩ := by
        rw [hcalc, hloop]
      rw [hres]
      exact ⟨rfl, rotation_advice_mem_iff b bb.width bb.height⟩

lemma bbRot_px1 : partsX bbRot sheet1000 = 66 := by
  rw [partsX, show (sheet1000.width - spacing) / (bbRot.width + spacing) = 199/3
      from by norm_num [sheet1000, bbRot, spacing]]
  exact pyInt_eval 66 (by norm_num) (by norm_num) (by norm_num)

lemma bbRot_py1 : partsY bbRot sheet1000 = 17 := by
  rw [partsY, show (sheet1000.height - spacing) / (bbRot.height + spacing) = 399/23
      from by norm_num [sheet1000, bbRot, spacing]]
  exact pyInt_eval 17 (by norm_num) (by norm_num) (by norm_num)

lemma bbRot_tp1 : totalParts bbRot sheet1000 = 1122 := by
  rw [totalParts, bbRot_px1, bbRot_py1]; norm_num

lemma bbRot_u1 : utilRaw bbRot sheet1000 = 6171/100 := by
  rw [utilRaw, bbRot_tp1]
  show ((1122:ℤ) : ℚ) * bbRot.area / sheet1000.area * 100 = 6171/100
  norm_num [bbRot, sheet1000]

lemma bbRot_px2 : partsX bbRot sheet1250 = 83 := by
  rw [partsX, show (sheet1250.width - spacing) / (bbRot.width + spacing) = 83
      from by norm_num [sheet1250, bbRot, spacing]]
  exact pyInt_eval 83 (by norm_num) (by norm_num) (by norm_num)

lemma bbRot_py2 : partsY bbRot sheet1250 = 21 := by
  rw [partsY, show (sheet1250.height - spacing) / (bbRot.height + spacing) = 499/23
      from by norm_num [sheet1250, bbRot, spacing]]
  exact pyInt_eval 21 (by norm_num) (by norm_num) (by norm_num)

lemma bbRot_tp2 : totalParts bbRot sheet1250 = 1743 := by
  rw [totalParts, bbRot_px2, bbRot_py2]; norm_num

lemma bbRot_u2 : utilRaw bbRot sheet1250 = 383460/6250 := by
  rw [utilRaw, bbRot_tp2]
  show ((1743:ℤ) : ℚ) * bbRot.area / sheet1250.area * 100 = 383460/6250
  norm_num [bbRot, sheet1250]

lemma bbRot_px3 : partsX bbRot sheet1500 = 99 := by
  rw [partsX, show (sheet1500.width - spacing) / (bbRot.width + spacing) = 299/3
      from by norm_num [sheet1500, bbRot, spacing]]
  exact pyInt_eval 99 (by norm_num) (by norm_num) (by norm_num)

lemma bbRot_py3 : partsY bbRot sheet1500 = 26 := by
  rw [partsY, show (sheet1500.height - spacing) / (bbRot.height + spacing) = 599/23
      from by norm_num [sheet1500, bbRot, spacing]]
  exact pyInt_eval 26 (by norm_num) (by norm_num) (by norm_num)

lemma bbRot_tp3 : totalParts bbRot sheet1500 = 2574 := by
  rw [totalParts, bbRot_px3, bbRot_py3]; norm_num

lemma bbRot_u3 : utilRaw bbRot sheet1500 = 1573/25 := by
  rw [utilRaw, bbRot_tp3]
  show ((2574:ℤ) : ℚ) * bbRot.area / sheet1500.area * 100 = 1573/25
  norm_num [bbRot, sheet1500]

lemma bbRot_px4 : partsX bbRot sheet2000 = 133 := by
  rw [partsX, show (sheet2000.width - spacing) / (bbRot.width + spacing) = 133
      from by norm_num [sheet2000, bbRot, spacing]]
  exact pyInt_eval 133 (by norm_num) (by norm_num) (by norm_num)

lemma bbRot_py4 : partsY bbRot sheet2000 = 34 := by
  rw [partsY, show (sheet2000.height - spacing) / (bbRot.height + spacing) = 799/23
      from by norm_num [sheet2000, bbRot, spacing]]
  exact pyInt_eval 34 (by norm_num) (by norm_num) (by norm_num)

lemma bbRot_tp4 : totalParts bbRot sheet2000 = 4522 := by
  rw [totalParts, bbRot_px4, bbRot_py4]; norm_num

lemma bbRot_u4 : utilRaw bbRot sheet2000 = 24871/400 := by
  rw [utilRaw, bbRot_tp4]
  show ((4522:ℤ) : ℚ) * bbRot.area / sheet2000.area * 100 = 24871/400
  norm_num [bbRot, sheet2000]

lemma nestLoop_cons_snd (bb : BoundingBox) (s : Sheet) (rest : List Sheet)
    (bu : ℚ) (best : Option Arrangement) :
    (nestLoop bb (s :: rest) bu best).2 =
      if totalParts bb s = 0 then (nestLoop bb rest bu best).2
      else if utilRaw bb s > bu then
        (nestLoop bb rest (utilRaw bb s) (some (mkArrangement bb s))).2
      else (nestLoop bb rest bu best).2 := by
  rw [nestLoop]
  split_ifs <;> rfl

/-- The selection loop on the 10 x 110 part: the 1500 x 3000 sheet wins at a
raw utilization of 62.92%. -/
lemma bbRot_loop : (nestLoop bbRot standard_sheets 0 none).2 =
    some (mkArrangement bbRot sheet1500) := by
  rw [show standard_sheets = [sheet1000, sheet1250, sheet1500, sheet2000] from rfl]
  rw [nestLoop_cons_snd, if_neg (by rw [bbRot_tp1]; norm_num),
      if_pos (by rw [bbRot_u1]; norm_num)]
  rw [nestLoop_cons_snd, if_neg (by rw [bbRot_tp2]; norm_num),
      if_neg (by rw [bbRot_u2, bbRot_u1]; norm_num)]
  rw [nestLoop_cons_snd, if_neg (by rw [bbRot_tp3]; norm_num),
      if_pos (by rw [bbRot_u3, bbRot_u1]; norm_num)]
  rw [nestLoop_cons_snd, if_neg (by rw [bbRot_tp4]; norm_num),
      if_neg (by rw [bbRot_u4, bbRot_u3]; norm_num)]
  rfl

lemma bbRot_calc : calculate_optimal_nesting bbRot "steel" 1 =
    .success ⟨round2 bbRot.width, round2 bbRot.height, round2 bbRot.area,
      mkArrangement bbRot sheet1500,
      (nestLoop bbRot standard_sheets 0 none).1,
      generate_nesting_recommendations (mkArrangement bbRot sheet1500)
        bbRot.width bbRot.height⟩ := by
  have hne : ¬ (bbRot.width = 0 ∨ bbRot.height = 0) := by
    rintro (h | h) <;> simp [bbRot] at h
  rw [calculate_optimal_nesting, if_neg hne]
  show (match (nestLoop bbRot standard_sheets 0 none).2 with
    | none => NestResult.failure "Part too large for standard sheets"
    | some bestArr => NestResult.success ⟨round2 bbRot.width, round2 bbRot.height,
        round2 bbRot.area, bestArr, (nestLoop bbRot standard_sheets 0 none).1,
        generate_nesting_recommendations bestArr bbRot.width bbRot.height⟩) = _
  rw [bbRot_loop]

lemma bbRot_best_util : (mkArrangement bbRot sheet1500).utilization = 6292/100 := by
  rw [mkArrangement_utilization, bbRot_u3]
  rw [round2_eval 6292 (by norm_num) (by norm_num)]
  norm_num

lemma mkArrangement_waste_percent (bb : BoundingBox) (s : Sheet) :
    (mkArrangement bb s).waste_percent =
      round2 ((s.area - (totalParts bb s : ℚ) * bb.area) / s.area * 100) := rfl

lemma bbRot_waste : (mkArrangement bbRot sheet1500).waste_percent = 3708/100 := by
  rw [mkArrangement_waste_percent, bbRot_tp3]
  rw [show ((sheet1500.area - ((2574:ℤ) : ℚ) * bbRot.area) / sheet1500.area * 100)
      = 927/25 from by norm_num [sheet1500, bbRot]]
  rw [round2_eval 3708 (by norm_num) (by norm_num)]
  norm_num

lemma bbRot_rotated : rotatedTotal (mkArrangement bbRot sheet1500)
    bbRot.width bbRot.height = 2587 := by
  rw [rotatedTotal, mkArrangement_sheet_width, mkArrangement_sheet_height]
  rw [show (sheet1500.width - 5) / (bbRot.height + 5) = 13
      from by norm_num [sheet1500, bbRot]]
  rw [show (sheet1500.height - 5) / (bbRot.width + 5) = 599/3
      from by norm_num [sheet1500, bbRot]]
  rw [pyInt_eval 13 (by norm_num) (by norm_num) (by norm_num),
      pyInt_eval 199 (by norm_num) (by norm_num) (by norm_num)]
  norm_num

/-- The concrete recommendation list of the 10 x 110 part: no sub-50%
rotation note, but high-waste, batch and the rotated-grid advisory. -/
lemma bbRot_recs : generate_nesting_recommendations (mkArrangement bbRot sheet1500)
    bbRot.width bbRot.height =
    [Advice.highWaste, Advice.batchProduction, Advice.rotationWouldFit 2587 2574] := by
  rw [generate_nesting_recommendations]
  rw [if_neg (by rw [bbRot_best_util]; norm_num)]
  rw [if_pos (by rw [bbRot_waste]; norm_num)]
  rw [if_pos (by rw [mkArrangement_total_parts, bbRot_tp3]; norm_num)]
  rw [if_pos (by rw [bbRot_rotated, mkArrangement_total_parts, bbRot_tp3]; norm_num)]
  rw [bbRot_rotated, mkArrangement_total_parts, bbRot_tp3]
  rfl

/-- C4 counterexample: on the 10 x 110 mm part the chosen arrangement sits
at 62.92% utilization — well above 50% — yet the rotated-grid advisory
("would fit 2587 vs 2574 parts") is still produced, refuting "the rotated
comparison is evaluated only below 50% utilization". -/
theorem rotation_advice_high_util_counterexample :
    (50:ℚ) ≤ nestBestUtilization (calculate_optimal_nesting bbRot "steel" 1) ∧
    Advice.rotationWouldFit 2587 2574 ∈
      nestRecommendations (calculate_optimal_nesting bbRot "steel" 1) := by
  constructor
  · rw [bbRot_calc]
    show (50:ℚ) ≤ (mkArrangement bbRot sheet1500).utilization
    rw [bbRot_best_util]
    norm_num
  · rw [bbRot_calc]
    show Advice.rotationWouldFit 2587 2574 ∈
      generate_nesting_recommendations (mkArrangement bbRot sheet1500)
        bbRot.width bbRot.height
    rw [bbRot_recs]
    simp

theorem rotation_advice_advisory_only_witness :
    isSuccess (calculate_optimal_nesting bbRot "steel" 1) ∧
    (nestRecommendations (calculate_optimal_nesting bbRot "steel" 1) =
      generate_nesting_recommendations
        (nestBestArrangement (calculate_optimal_nesting bbRot "steel" 1))
        bbRot.width bbRot.height ∧
    (hasRotationAdvice (nestRecommendations (calculate_optimal_nesting bbRot "steel" 1)) ↔
      rotatedTotal (nestBestArrangement (calculate_optimal_nesting bbRot "steel" 1))
          bbRot.width bbRot.height >
        (nestBestArrangement (calculate_optimal_nesting bbRot "steel" 1)).total_parts)) :=
  ⟨by rw [bbRot_calc]; trivial,
   rotation_advice_advisory_only bbRot "steel" 1 (by rw [bbRot_calc]; trivial)⟩

end CAD
